import Mathlib

/-
Verification of the EduIntel backend scoring pipeline (src/app.py).

The embedding models the pure parts of the pipeline over Lean types:
text is `List Char`, similarity values are exact rationals, the
embedding model together with cosine similarity is an opaque function
parameter, and the two PDF libraries are represented by the page texts
they would deliver.
-/

/-! ## Rounding (Python `round(x, 2)` over exact rationals) -/

/-- Round a rational to the nearest integer, ties to even, as Python's
`round` does on its numeric value. -/
def roundHalfEven (q : ℚ) : ℤ :=
  if q - ⌊q⌋ < 1 / 2 then ⌊q⌋
  else if 1 / 2 < q - ⌊q⌋ then ⌊q⌋ + 1
  else if ⌊q⌋ % 2 = 0 then ⌊q⌋ else ⌊q⌋ + 1

/-- `round(x, 2)`: round to two decimal places. -/
def round2 (q : ℚ) : ℚ := (roundHalfEven (q * 100) : ℚ) / 100

/-! ## Characters and trimming (`str.strip`) -/

/-- The whitespace characters removed by Python `str.strip()`. -/
def isSpace (c : Char) : Bool :=
  c == ' ' || c == '\t' || c == '\n' || c == '\r' || c == '\x0b' || c == '\x0c'

/-- Python `str.strip()`: drop leading and trailing whitespace. -/
def strip (cs : List Char) : List Char :=
  ((cs.dropWhile isSpace).reverse.dropWhile isSpace).reverse

/-- A regex word character (`\w`): letter, digit or underscore. -/
def isWordChar (c : Char) : Bool := c.isAlpha || c.isDigit || c == '_'

/-! ## The delimiter of `split_answers` (src/app.py line 59):
the regex `(?:\bQ?\d+\.)`. -/

/-- Match `\d+\.` at the head of `cs`: a maximal nonempty digit run
followed by a literal period.  Returns the matched length. -/
def digitsDot (cs : List Char) : Option Nat :=
  if (cs.takeWhile Char.isDigit).length = 0 then none
  else if cs.getD (cs.takeWhile Char.isDigit).length ' ' = '.' then
    some ((cs.takeWhile Char.isDigit).length + 1)
  else none

/-- Match `Q?\d+\.` at the head of `cs` (no boundary condition). -/
def matchCore (cs : List Char) : Option Nat :=
  match cs with
  | 'Q' :: rest => (digitsDot rest).map (· + 1)
  | _ => digitsDot cs

/-- Match `\bQ?\d+\.` at the current position: `prevW` says whether the
preceding character is a word character (false at the start of the
string).  Since any match begins with a word character, the word
boundary `\b` holds exactly when `prevW` is false. -/
def matchAt (prevW : Bool) (cs : List Char) : Option Nat :=
  if prevW then none else matchCore cs

/-- The delimiter as claim C5 words it: `Q?\d+\.` with no word-boundary
requirement, used only to state the claim. -/
def matchAtNaive (_ : Bool) (cs : List Char) : Option Nat := matchCore cs

/-! ## `re.split`: leftmost, non-overlapping scan -/

/-- One left-to-right scan of `re.split`, parametrised by the matcher.
`skip` counts characters of a found delimiter still to be consumed,
`prevW` tracks whether the previous character is a word character, and
`cur` accumulates the current segment in reverse. -/
def splitGo (m : Bool → List Char → Option Nat) :
    Nat → Bool → List Char → List Char → List (List Char)
  | _, _, cur, [] => [cur.reverse]
  | skip + 1, _, cur, _ :: rest => splitGo m skip false cur rest
  | 0, prevW, cur, c :: rest =>
    match m prevW (c :: rest) with
    | some L => cur.reverse :: splitGo m (L - 1) false [] rest
    | none => splitGo m 0 (isWordChar c) (c :: cur) rest

/-- `re.split(r'(?:\bQ?\d+\.)', text)`. -/
def reSplit (cs : List Char) : List (List Char) := splitGo matchAt 0 false [] cs

/-- The split claim C5 describes: same scan, but the delimiter carries
no word-boundary requirement. -/
def reSplitClaimed (cs : List Char) : List (List Char) :=
  splitGo matchAtNaive 0 false [] cs

/-- `split_answers` from src/app.py lines 58-68: split at the delimiter,
strip each part, keep the parts of length strictly greater than 20. -/
def split_answers (cs : List Char) : List (List Char) :=
  ((reSplit cs).map strip).filter (fun p => 20 < p.length)

/-- `split_answers` as claim C5 describes it (delimiter without the
word boundary), used only to state the claim. -/
def split_answers_claimed (cs : List Char) : List (List Char) :=
  ((reSplitClaimed cs).map strip).filter (fun p => 20 < p.length)

/-! ## A declarative reformulation of the split, for the refinement
theorem of claim C5 -/

/-- Find the leftmost delimiter match: returns the text before the
match and the text after it, or `none` when no position matches. -/
def findSplit (prevW : Bool) : List Char → Option (List Char × List Char)
  | [] => none
  | c :: rest =>
    match matchAt prevW (c :: rest) with
    | some L => some ([], (c :: rest).drop L)
    | none => (findSplit (isWordChar c) rest).map (fun pr => (c :: pr.1, pr.2))

/-- The split, stated the way the (amended) spec reads: cut out the
leftmost delimiter occurrence and recurse on what follows.  Fuel only
bounds the recursion; any fuel above the text length gives the same
result (`splitSpecGo_fuel`), since every cut removes at least one
character. -/
def splitSpecGo : Nat → List Char → List (List Char)
  | 0, cs => [cs]
  | fuel + 1, cs =>
    match findSplit false cs with
    | none => [cs]
    | some pr => pr.1 :: splitSpecGo fuel pr.2

/-- The declarative split with enough fuel for the whole text. -/
def splitSpec (cs : List Char) : List (List Char) :=
  splitSpecGo (cs.length + 1) cs

/-- Spec-level `split_answers`: the declarative split followed by the
same strip-and-filter step. -/
def split_answers_spec (cs : List Char) : List (List Char) :=
  ((splitSpec cs).map strip).filter (fun p => 20 < p.length)

/-! ## Scoring (src/app.py lines 122-160) -/

/-- `if similarity < 0.20: similarity = 0` (line 132). -/
def clampSim (s : ℚ) : ℚ := if s < 1 / 5 then 0 else s

/-- The status label from the percent score (lines 139-146). -/
def statusOf (p : ℚ) : String :=
  if 75 ≤ p then "Strong Understanding"
  else if 45 ≤ p then "Partial Understanding"
  else if 0 < p then "Weak Understanding"
  else "Not Related"

/-- One entry of the per-question result list (lines 148-152). -/
structure QuestionResult where
  question_number : Nat
  similarity_percent : ℚ
  status : String
deriving DecidableEq, Repr

/-- Loop body for index `i` and raw cosine similarity `raw`
(lines 124-152): clamp, convert to a rounded percentage, classify. -/
def questionResultAt (i : Nat) (raw : ℚ) : QuestionResult :=
  ⟨i + 1, round2 (clampSim raw * 100),
    statusOf (round2 (clampSim raw * 100))⟩

/-- The question-result list built by the loop, with the running
1-based position counter. -/
def scoreQuestions : Nat → List ℚ → List QuestionResult
  | _, [] => []
  | i, r :: rs => questionResultAt i r :: scoreQuestions (i + 1) rs

/-- The raw cosine similarities consumed by the loop: one per index in
`range (min |teacher| |student|)`, produced by the opaque
embed-and-compare function `c` (lines 122-127). -/
def rawsOf (c : List Char → List Char → ℚ)
    (teacher_answers student_answers : List (List Char)) : List ℚ :=
  (List.range (min teacher_answers.length student_answers.length)).map
    (fun i => c (teacher_answers.getD i []) (student_answers.getD i []))

/-- `overall` (lines 155-158): mean of the clamped similarities as a
percentage, or 0 when no pair was scored. -/
def overallOf (similarities : List ℚ) : ℚ :=
  if similarities = [] then 0
  else (similarities.sum / (similarities.length : ℚ)) * 100

/-- The whole scoring loop for one student: the question results and
the rounded performance score (lines 122-160). -/
def scoreStudent (c : List Char → List Char → ℚ)
    (teacher_answers student_answers : List (List Char)) :
    List QuestionResult × ℚ :=
  (scoreQuestions 0 (rawsOf c teacher_answers student_answers),
    round2 (overallOf ((rawsOf c teacher_answers student_answers).map clampSim)))

/-- One student's result record (lines 104-108). -/
structure StudentResult where
  pdf_name : String
  questions : List QuestionResult
  performance_score : ℚ
deriving DecidableEq, Repr

/-- The per-student body of the handler loop, after segmentation
(lines 104-162): an empty answer set short-circuits to an empty result
without invoking the scorer. -/
def studentResultFor (c : List Char → List Char → ℚ)
    (teacher_answers student_answers : List (List Char))
    (name : String) : StudentResult :=
  if student_answers.length = 0 then ⟨name, [], 0⟩
  else
    ⟨name, (scoreStudent c teacher_answers student_answers).1,
      (scoreStudent c teacher_answers student_answers).2⟩

/-! ## Text extraction (src/app.py lines 22-53) -/

/-- One uploaded PDF, represented by what the two extraction libraries
would deliver for it: `directPages` are the page texts the direct pass
accumulates (an unextractable page contributes `[]`, matching a falsy
`page.extract_text()`), `directErr` says whether the direct pass then
raises, and `ocrPages` are the per-image OCR texts of the fallback. -/
structure Document where
  filename : String
  directPages : List (List Char)
  directErr : Bool
  ocrPages : List (List Char)
deriving DecidableEq, Repr

/-- The text accumulated by the direct extraction loop (lines 27-31):
each truthy page text followed by a newline. -/
def directText (pages : List (List Char)) : List Char :=
  pages.foldl (fun acc t => if t = [] then acc else acc ++ t ++ ['\n']) []

/-- The OCR fallback loop (lines 44-48): append each image's OCR text
and a newline to the text accumulated so far. -/
def ocrText (base : List Char) (imgs : List (List Char)) : List Char :=
  imgs.foldl (fun acc t => acc ++ t ++ ['\n']) base

/-- `extract_text` (lines 22-53).  Returns the extracted text and
whether the OCR fallback path was entered. -/
def extract_text (d : Document) : List Char × Bool :=
  if d.directErr = false ∧ 50 < (strip (directText d.directPages)).length then
    (directText d.directPages, false)
  else (ocrText (directText d.directPages) d.ocrPages, true)

/-! ## The /analyze handler (src/app.py lines 73-167) -/

/-- Extract, segment and score one student document against the
teacher's answer set (lines 99-162). -/
def processStudent (c : List Char → List Char → ℚ)
    (teacher_answers : List (List Char)) (d : Document) : StudentResult :=
  studentResultFor c teacher_answers
    (split_answers (extract_text d).1) d.filename

/-- The handler's response: a 400 validation rejection with its message,
or the success payload. -/
inductive AnalyzeResponse where
  | badRequest (msg : String)
  | ok (data : List StudentResult)
deriving DecidableEq, Repr

/-- The `/analyze` handler (lines 73-167): validation in order, then
one `StudentResult` per student in input order.  A missing "teacher"
field is `none`. -/
def analyze (c : List Char → List Char → ℚ)
    (teacher : Option Document) (students : List Document) : AnalyzeResponse :=
  match teacher with
  | none => .badRequest "Teacher key not uploaded"
  | some tdoc =>
    if students.length = 0 then .badRequest "No student files uploaded"
    else
      if (split_answers (extract_text tdoc).1).length = 0 then
        .badRequest "Teacher answers could not be extracted"
      else
        .ok (students.map
          (processStudent c (split_answers (extract_text tdoc).1)))

/-! ## Concrete instances used by the witnesses and counterexamples -/

/-- An opaque embed-and-compare function for witnesses: every pair of
segments has cosine similarity 1/2. -/
def cW : List Char → List Char → ℚ := fun _ _ => 1 / 2

/-- A teacher document whose single page yields one answer segment. -/
def tGoodDoc : Document :=
  ⟨"teacher.pdf",
    [("1. The mitochondria is the powerhouse of the cell.").data],
    false, []⟩

/-- A teacher document from which no answer segment can be extracted. -/
def tShortDoc : Document := ⟨"short.pdf", [("short").data], false, []⟩

/-- A student document with no extractable text at all. -/
def sEmptyDoc : Document := ⟨"empty.pdf", [], false, []⟩

/-- A student document whose single page yields one answer segment. -/
def sGoodDoc : Document :=
  ⟨"student.pdf",
    [("1. Mitochondria make energy for the cell every day.").data],
    false, []⟩

/-- A document with more than 50 characters of direct text and a
nonempty OCR alternative, for claim C9's witness. -/
def dDirectDoc : Document :=
  ⟨"direct.pdf",
    [("This page carries plenty of directly extractable text content.").data],
    false, [("ocr text that must never be used").data]⟩

/-- Claim C5's counterexample input: the delimiter-shaped substring
`1.` is preceded by the word character `x`, so the regex's word
boundary blocks the split. -/
def cexBoundary : List Char := ("x1. aaaaaaaaaaaaaaaaaaaaaaaaa").data

/-- Claim C6's counterexample input: splitting yields one segment that
trims to exactly 20 characters. -/
def cexTwenty : List Char := ("1. aaaaaaaaaaaaaaaaaaaa").data

/-- A variant of claim C6's input whose segment trims to 21
characters, used by the amended claim's witness. -/
def cexTwentyOne : List Char := ("1. aaaaaaaaaaaaaaaaaaaaa").data

/-! ## Helper lemmas: rounding and clamping -/

theorem roundHalfEven_ge (m : ℤ) (q : ℚ) (h : (m : ℚ) ≤ q) :
    m ≤ roundHalfEven q := by
  have hf : m ≤ ⌊q⌋ := Int.le_floor.mpr h
  unfold roundHalfEven
  split
  · exact hf
  · split
    · omega
    · split <;> omega

theorem round2_ge (m : ℤ) (q : ℚ) (h : (m : ℚ) ≤ q) : (m : ℚ) ≤ round2 q := by
  have h1 : ((100 * m : ℤ) : ℚ) ≤ q * 100 := by push_cast; linarith
  have h2 : ((100 * m : ℤ) : ℚ) ≤ (roundHalfEven (q * 100) : ℚ) := by
    exact_mod_cast roundHalfEven_ge (100 * m) (q * 100) h1
  have hm : (m : ℚ) = ((100 * m : ℤ) : ℚ) / 100 := by push_cast; ring
  rw [hm]
  unfold round2
  gcongr

theorem round2_nonneg (q : ℚ) (h : 0 ≤ q) : 0 ≤ round2 q := by
  have := round2_ge 0 q (by exact_mod_cast h)
  exact_mod_cast this

theorem roundHalfEven_intCast (n : ℤ) : roundHalfEven (n : ℚ) = n := by
  unfold roundHalfEven
  rw [Int.floor_intCast]
  norm_num

theorem round2_intCast (n : ℤ) : round2 (n : ℚ) = (n : ℚ) := by
  unfold round2
  have : ((n : ℚ) * 100) = (((n * 100 : ℤ)) : ℚ) := by push_cast; ring
  rw [this, roundHalfEven_intCast]
  push_cast
  ring

theorem round2_zero : round2 0 = 0 := by
  simpa using round2_intCast 0

theorem clampSim_nonneg (s : ℚ) : 0 ≤ clampSim s := by
  unfold clampSim
  split
  · exact le_refl 0
  · linarith [not_lt.mp (by assumption : ¬ s < 1 / 5)]

theorem clampSim_cases (s : ℚ) : clampSim s = 0 ∨ 1 / 5 ≤ clampSim s := by
  unfold clampSim
  split
  · exact Or.inl rfl
  · exact Or.inr (not_lt.mp (by assumption))

theorem percent_nonneg (raw : ℚ) : 0 ≤ round2 (clampSim raw * 100) :=
  round2_nonneg _ (mul_nonneg (clampSim_nonneg raw) (by norm_num))

/-! ## Claim C1 -/

/-- Claim C1: for every scored pair, the status label is determined
from the similarity percentage (after clamping and rounding to two
decimals) by inclusive lower-bound thresholds; the four guard ranges
are mutually exclusive and, together with the percentage being
nonnegative, exhaustive, so exactly one of the four labels applies,
with the boundary values 0, 45 and 75 in the higher bucket. -/
theorem C1_status_thresholds (raw : ℚ) :
    0 ≤ round2 (clampSim raw * 100) ∧
    ((75 ≤ round2 (clampSim raw * 100) ∧
        statusOf (round2 (clampSim raw * 100)) = "Strong Understanding") ∨
      (45 ≤ round2 (clampSim raw * 100) ∧ round2 (clampSim raw * 100) < 75 ∧
        statusOf (round2 (clampSim raw * 100)) = "Partial Understanding") ∨
      (0 < round2 (clampSim raw * 100) ∧ round2 (clampSim raw * 100) < 45 ∧
        statusOf (round2 (clampSim raw * 100)) = "Weak Understanding") ∨
      (round2 (clampSim raw * 100) = 0 ∧
        statusOf (round2 (clampSim raw * 100)) = "Not Related")) := by
  set p := round2 (clampSim raw * 100) with hp
  have hp0 : 0 ≤ p := percent_nonneg raw
  refine ⟨hp0, ?_⟩
  by_cases h75 : 75 ≤ p
  · exact Or.inl ⟨h75, by simp [statusOf, h75]⟩
  · by_cases h45 : 45 ≤ p
    · exact Or.inr (Or.inl ⟨h45, not_le.mp h75, by simp [statusOf, h75, h45]⟩)
    · by_cases h0 : 0 < p
      · exact Or.inr (Or.inr (Or.inl
          ⟨h0, not_le.mp h45, by simp [statusOf, h75, h45, h0]⟩))
      · have hz : p = 0 := le_antisymm (not_lt.mp h0) hp0
        refine Or.inr (Or.inr (Or.inr ⟨hz, ?_⟩))
        rw [hz]
        norm_num [statusOf]

/-! ## Claim C3 -/

/-- Claim C3: a raw cosine similarity strictly below 0.20 (negative
values included) is clamped to exactly 0, so the pair's reported
percentage is 0, its status is "Not Related", and it contributes 0 to
the performance mean. -/
theorem C3_noise_floor (raw : ℚ) (h : raw < 1 / 5) :
    clampSim raw = 0 ∧ round2 (clampSim raw * 100) = 0 ∧
      statusOf (round2 (clampSim raw * 100)) = "Not Related" ∧
      questionResultAt 0 raw =
        ⟨1, 0, "Not Related"⟩ := by
  have hc : clampSim raw = 0 := by unfold clampSim; rw [if_pos h]
  have hz : round2 (clampSim raw * 100) = 0 := by
    rw [hc]
    simpa using round2_zero
  refine ⟨hc, hz, ?_, ?_⟩
  · rw [hz]; norm_num [statusOf]
  · unfold questionResultAt
    rw [hz]
    norm_num [statusOf]

/-- Witness for C3 at the concrete (negative) raw similarity -1/2. -/
theorem C3_noise_floor_witness :
    clampSim (-1 / 2) = 0 ∧ round2 (clampSim (-1 / 2) * 100) = 0 ∧
      statusOf (round2 (clampSim (-1 / 2) * 100)) = "Not Related" ∧
      questionResultAt 0 (-1 / 2) = ⟨1, 0, "Not Related"⟩ :=
  C3_noise_floor (-1 / 2) (by norm_num)

/-! ## Claim C10 -/

/-- Claim C10: every reported similarity percentage is either exactly 0
or at least 20 — the 0.20 noise floor zeroes every smaller similarity
before conversion — and consequently the "Weak Understanding" label
occurs exactly for percentages in [20, 45). -/
theorem C10_percent_gap (raw : ℚ) :
    (round2 (clampSim raw * 100) = 0 ∨ 20 ≤ round2 (clampSim raw * 100)) ∧
    (statusOf (round2 (clampSim raw * 100)) = "Weak Understanding" ↔
      (20 ≤ round2 (clampSim raw * 100) ∧ round2 (clampSim raw * 100) < 45)) := by
  set p := round2 (clampSim raw * 100) with hp
  rcases clampSim_cases raw with h | h
  · have hz : p = 0 := by
      rw [hp, h]
      simpa using round2_zero
    refine ⟨Or.inl hz, ?_⟩
    rw [hz]
    constructor
    · intro hw
      have : statusOf 0 = "Not Related" := by norm_num [statusOf]
      rw [this] at hw
      exact absurd hw (by decide)
    · intro hc
      linarith [hc.1]
  · have h20 : (20 : ℚ) ≤ p := by
      rw [hp]
      exact_mod_cast round2_ge 20 (clampSim raw * 100) (by push_cast; linarith)
    refine ⟨Or.inr h20, ?_⟩
    by_cases h45 : p < 45
    · have h75 : ¬ 75 ≤ p := by linarith
      have h45' : ¬ 45 ≤ p := not_le.mpr h45
      have h0 : 0 < p := by linarith
      have hs : statusOf p = "Weak Understanding" := by
        simp [statusOf, h75, h45', h0]
      simp [hs, h20, h45]
    · have h45' : 45 ≤ p := not_lt.mp h45
      have hs : statusOf p ≠ "Weak Understanding" := by
        unfold statusOf
        by_cases h75 : 75 ≤ p
        · rw [if_pos h75]
          decide
        · rw [if_neg h75, if_pos h45']
          decide
      constructor
      · intro hw
        exact absurd hw hs
      · intro hc
        linarith [hc.2]

/-! ## Claim C2 -/

/-- Claim C2: with at least one scored pair, the performance score is
the mean of the post-clamp, pre-rounding similarity fractions times
100, rounded to two decimals; with zero scored pairs it is 0; and the
similarities [0.9, 0.3, 0.1] (the last clamped to 0) give exactly
40. -/
theorem C2_performance_mean (c : List Char → List Char → ℚ)
    (t s : List (List Char)) (n : String) :
    (rawsOf c t s ≠ [] →
      (studentResultFor c t s n).performance_score =
        round2 ((((rawsOf c t s).map clampSim).sum /
          (((rawsOf c t s).map clampSim).length : ℚ)) * 100)) ∧
    (rawsOf c t s = [] →
      (studentResultFor c t s n).performance_score = 0) ∧
    round2 (overallOf (List.map clampSim [9 / 10, 3 / 10, 1 / 10])) = 40 := by
  refine ⟨?_, ?_, ?_⟩
  · intro hraw
    have hs : ¬ s.length = 0 := by
      intro h0
      exact hraw (by simp [rawsOf, h0])
    have hne : (rawsOf c t s).map clampSim ≠ [] := by
      simpa using hraw
    simp only [studentResultFor, if_neg hs, scoreStudent]
    rw [overallOf, if_neg hne]
  · intro hraw
    by_cases hs : s.length = 0
    · simp [studentResultFor, hs]
    · simp only [studentResultFor, if_neg hs, scoreStudent]
      rw [hraw]
      simp [overallOf, round2_zero]
  · have h1 : List.map clampSim [9 / 10, 3 / 10, 1 / 10] =
        [9 / 10, 3 / 10, (0 : ℚ)] := by
      norm_num [clampSim]
    rw [h1]
    have h2 : overallOf [9 / 10, 3 / 10, (0 : ℚ)] = 40 := by
      rw [overallOf, if_neg (by simp : ¬([9 / 10, 3 / 10, (0 : ℚ)] = []))]
      norm_num
    rw [h2]
    have h3 := round2_intCast 40
    exact_mod_cast h3

/-- Witness for C2 at a one-question teacher/student pair whose only
cosine similarity is 1/2. -/
theorem C2_performance_mean_witness :
    rawsOf cW [[' ']] [['a']] ≠ [] ∧
    (studentResultFor cW [[' ']] [['a']] "w.pdf").performance_score =
      round2 ((((rawsOf cW [[' ']] [['a']]).map clampSim).sum /
        (((rawsOf cW [[' ']] [['a']]).map clampSim).length : ℚ)) * 100) := by
  have hne : rawsOf cW [[' ']] [['a']] ≠ [] := by
    simp [rawsOf]
  exact ⟨hne, (C2_performance_mean cW [[' ']] [['a']] "w.pdf").1 hne⟩

/-! ## Claim C4 -/

theorem scoreQuestions_length (i : Nat) (rs : List ℚ) :
    (scoreQuestions i rs).length = rs.length := by
  induction rs generalizing i with
  | nil => rfl
  | cons r rs ih => simp [scoreQuestions, ih]

theorem scoreQuestions_numbers (i : Nat) (rs : List ℚ) :
    (scoreQuestions i rs).map (fun q => q.question_number) =
      List.range' (i + 1) rs.length := by
  induction rs generalizing i with
  | nil => rfl
  | cons r rs ih =>
    simp only [scoreQuestions, List.map_cons, questionResultAt, ih,
      List.length_cons]
    rw [List.range'_succ]

theorem rawsOf_length (c : List Char → List Char → ℚ)
    (t s : List (List Char)) :
    (rawsOf c t s).length = min t.length s.length := by
  simp [rawsOf]

/-- Claim C4: for every teacher answer set and student answer set, the
number of question results equals `min` of the two lengths, and the
positions are numbered 1, 2, ... in order; teacher questions beyond the
student's segment count produce no entry. -/
theorem C4_result_count (c : List Char → List Char → ℚ)
    (t s : List (List Char)) (n : String) :
    (studentResultFor c t s n).questions.length = min t.length s.length ∧
    (studentResultFor c t s n).questions.map (fun q => q.question_number) =
      List.range' 1 (min t.length s.length) := by
  by_cases hs : s.length = 0
  · simp [studentResultFor, hs]
  · have h1 : (studentResultFor c t s n).questions =
        scoreQuestions 0 (rawsOf c t s) := by
      simp [studentResultFor, hs, scoreStudent]
    rw [h1, scoreQuestions_length, scoreQuestions_numbers, rawsOf_length]
    exact ⟨rfl, rfl⟩

/-! ## Claim C7 -/

/-- Claim C7: validation happens in order, each failure rejecting the
request with its distinct message and no further processing: a missing
"teacher" field, then an empty student list, then a teacher answer set
that is empty after extraction and segmentation. -/
theorem C7_validation_order :
    (∀ (c : List Char → List Char → ℚ) (students : List Document),
      analyze c none students =
        AnalyzeResponse.badRequest "Teacher key not uploaded") ∧
    (∀ (c : List Char → List Char → ℚ) (tdoc : Document),
      analyze c (some tdoc) [] =
        AnalyzeResponse.badRequest "No student files uploaded") ∧
    (∀ (c : List Char → List Char → ℚ) (tdoc : Document)
        (students : List Document),
      students ≠ [] →
      split_answers (extract_text tdoc).1 = [] →
      analyze c (some tdoc) students =
        AnalyzeResponse.badRequest "Teacher answers could not be extracted") := by
  refine ⟨fun c students => rfl, fun c tdoc => rfl, ?_⟩
  intro c tdoc students h1 h2
  have hs : ¬ students.length = 0 := by
    simpa [List.length_eq_zero] using h1
  simp [analyze, hs, h2]

/-- Witness for C7's third validation at a concrete teacher document
whose page text is too short to yield any answer segment. -/
theorem C7_validation_order_witness :
    analyze cW (some tShortDoc) [sGoodDoc] =
      AnalyzeResponse.badRequest "Teacher answers could not be extracted" :=
  C7_validation_order.2.2 cW tShortDoc [sGoodDoc] (by simp) (by decide)

/-! ## Claim C8 -/

/-- Claim C8: a student whose answer set is empty is never passed to
the scorer — its result is a constant, independent of the
embed-and-compare function — carrying an empty question list and
performance score 0; and with a valid teacher the request still
succeeds, every student scored in input order. -/
theorem C8_empty_student :
    (∀ (c : List Char → List Char → ℚ) (t : List (List Char)) (n : String),
      studentResultFor c t [] n = ⟨n, [], 0⟩) ∧
    (∀ (c : List Char → List Char → ℚ) (t : List (List Char)) (d : Document),
      split_answers (extract_text d).1 = [] →
      processStudent c t d = ⟨d.filename, [], 0⟩) ∧
    (∀ (c : List Char → List Char → ℚ) (tdoc : Document)
        (students : List Document),
      students ≠ [] →
      split_answers (extract_text tdoc).1 ≠ [] →
      analyze c (some tdoc) students =
        AnalyzeResponse.ok (students.map
          (processStudent c (split_answers (extract_text tdoc).1)))) := by
  refine ⟨fun c t n => rfl, ?_, ?_⟩
  · intro c t d h
    unfold processStudent
    rw [h]
    rfl
  · intro c tdoc students h1 h2
    have hs : ¬ students.length = 0 := by
      simpa [List.length_eq_zero] using h1
    have ht : ¬ (split_answers (extract_text tdoc).1).length = 0 := by
      simpa [List.length_eq_zero] using h2
    simp [analyze, hs, ht]

/-- Witness for C8: a request with one unscoreable student and one
normal student succeeds, and the unscoreable student's entry is the
empty zero-score record. -/
theorem C8_empty_student_witness :
    analyze cW (some tGoodDoc) [sEmptyDoc, sGoodDoc] =
      AnalyzeResponse.ok ([sEmptyDoc, sGoodDoc].map
        (processStudent cW (split_answers (extract_text tGoodDoc).1))) ∧
    processStudent cW (split_answers (extract_text tGoodDoc).1) sEmptyDoc =
      ⟨"empty.pdf", [], 0⟩ :=
  ⟨C8_empty_student.2.2 cW tGoodDoc [sEmptyDoc, sGoodDoc] (by simp) (by decide),
    C8_empty_student.2.1 cW (split_answers (extract_text tGoodDoc).1) sEmptyDoc
      (by decide)⟩

/-! ## Claim C9 -/

/-- Claim C9: when the direct extraction pass succeeds and its
concatenated text has stripped length above 50, `extract_text` returns
that text at once and the OCR fallback is never entered — the result
does not depend on the OCR pages at all. -/
theorem C9_direct_first (d : Document) (h1 : d.directErr = false)
    (h2 : 50 < (strip (directText d.directPages)).length) :
    extract_text d = (directText d.directPages, false) := by
  unfold extract_text
  rw [if_pos ⟨h1, h2⟩]

/-- Witness for C9 at a document with 63 characters of direct text and
a decoy OCR page. -/
theorem C9_direct_first_witness :
    extract_text dDirectDoc = (directText dDirectDoc.directPages, false) :=
  C9_direct_first dDirectDoc rfl (by decide)

/-! ## The split scan agrees with the declarative split -/

theorem digitsDot_pos {cs : List Char} {L : Nat} (h : digitsDot cs = some L) :
    1 ≤ L := by
  unfold digitsDot at h
  split at h
  · exact absurd h (by simp)
  · split at h
    · simp only [Option.some.injEq] at h
      omega
    · exact absurd h (by simp)

theorem matchAt_pos {w : Bool} {cs : List Char} {L : Nat}
    (h : matchAt w cs = some L) : 1 ≤ L := by
  unfold matchAt at h
  split at h
  · exact absurd h (by simp)
  · unfold matchCore at h
    split at h
    · rcases Option.map_eq_some'.mp h with ⟨k, hk, rfl⟩
      have := digitsDot_pos hk
      omega
    · exact digitsDot_pos h

theorem findSplit_length {w : Bool} {cs p r : List Char}
    (h : findSplit w cs = some (p, r)) : r.length < cs.length := by
  induction cs generalizing w p r with
  | nil => simp [findSplit] at h
  | cons c rest ih =>
    unfold findSplit at h
    split at h
    · rename_i L hm
      have hL := matchAt_pos hm
      obtain ⟨rfl, rfl⟩ : [] = p ∧ (c :: rest).drop L = r := by
        simpa using h
      simp only [List.length_drop, List.length_cons]
      omega
    · rcases Option.map_eq_some'.mp h with ⟨⟨p', r'⟩, hfs, heq⟩
      obtain ⟨rfl, rfl⟩ : c :: p' = p ∧ r' = r := by
        simpa using heq
      have := ih hfs
      simp only [List.length_cons]
      omega

theorem splitGo_skip (m : Bool → List Char → Option Nat) (k : Nat)
    (cur cs : List Char) :
    splitGo m k false cur cs = splitGo m 0 false cur (cs.drop k) := by
  induction k generalizing cs with
  | zero => rfl
  | succ k ih =>
    cases cs with
    | nil => simp [splitGo]
    | cons c rest =>
      simpa [splitGo, List.drop_succ_cons] using ih rest

theorem splitGo_of_findSplit_none (w : Bool) (cs cur : List Char)
    (h : findSplit w cs = none) :
    splitGo matchAt 0 w cur cs = [cur.reverse ++ cs] := by
  induction cs generalizing w cur with
  | nil => simp [splitGo]
  | cons c rest ih =>
    unfold findSplit at h
    cases hm : matchAt w (c :: rest) with
    | some L =>
      rw [hm] at h
      simp at h
    | none =>
      rw [hm] at h
      have h' : findSplit (isWordChar c) rest = none := by
        cases hfr : findSplit (isWordChar c) rest with
        | none => rfl
        | some pr =>
          rw [hfr] at h
          simp at h
      have hstep : splitGo matchAt 0 w cur (c :: rest) =
          splitGo matchAt 0 (isWordChar c) (c :: cur) rest := by
        simp [splitGo, hm]
      rw [hstep, ih _ _ h']
      simp

theorem splitGo_of_findSplit_some (w : Bool) (cs cur p r : List Char)
    (h : findSplit w cs = some (p, r)) :
    splitGo matchAt 0 w cur cs =
      (cur.reverse ++ p) :: splitGo matchAt 0 false [] r := by
  induction cs generalizing w cur p r with
  | nil => simp [findSplit] at h
  | cons c rest ih =>
    unfold findSplit at h
    cases hm : matchAt w (c :: rest) with
    | some L =>
      rw [hm] at h
      obtain ⟨hp, hr⟩ : [] = p ∧ (c :: rest).drop L = r := by
        simpa using h
      have hL := matchAt_pos hm
      obtain ⟨L', rfl⟩ : ∃ k, L = k + 1 := ⟨L - 1, by omega⟩
      have hstep : splitGo matchAt 0 w cur (c :: rest) =
          cur.reverse :: splitGo matchAt L' false [] rest := by
        simp [splitGo, hm]
      rw [hstep, splitGo_skip]
      rw [← hr, ← hp]
      simp [List.drop_succ_cons]
    | none =>
      rw [hm] at h
      obtain ⟨⟨p', r'⟩, hfs, heq⟩ := Option.map_eq_some'.mp h
      obtain ⟨hp, hr⟩ : c :: p' = p ∧ r' = r := by
        simpa using heq
      have hstep : splitGo matchAt 0 w cur (c :: rest) =
          splitGo matchAt 0 (isWordChar c) (c :: cur) rest := by
        simp [splitGo, hm]
      rw [hstep, ih _ _ _ _ hfs, ← hp, ← hr]
      simp

theorem splitGo_eq_splitSpecGo (fuel : Nat) (cs : List Char)
    (h : cs.length < fuel) :
    splitGo matchAt 0 false [] cs = splitSpecGo fuel cs := by
  induction fuel generalizing cs with
  | zero => omega
  | succ fuel ih =>
    cases hfs : findSplit false cs with
    | none =>
      rw [splitGo_of_findSplit_none false cs [] hfs]
      simp [splitSpecGo, hfs]
    | some pr =>
      obtain ⟨p, r⟩ := pr
      rw [splitGo_of_findSplit_some false cs [] p r hfs]
      have hlt := findSplit_length hfs
      rw [ih r (by omega)]
      simp [splitSpecGo, hfs]

theorem reSplit_eq_splitSpec (cs : List Char) : reSplit cs = splitSpec cs :=
  splitGo_eq_splitSpecGo (cs.length + 1) cs (Nat.lt_succ_self _)

/-! ## Claim C5 -/

/-- Claim C5 counterexample: on `"x1. " ++ 25 a's` the code's regex
finds no delimiter — the `1.` is preceded by the word character `x`,
failing the pattern's word boundary — so `split_answers` keeps the
whole 29-character text, while the claim's described splitting (split
at every occurrence of optional `Q`, digits, period) would cut `1.`
out and return only the 25 a's. -/
theorem C5_split_counterexample :
    split_answers cexBoundary = [cexBoundary] ∧
    split_answers_claimed cexBoundary = [List.replicate 25 'a'] ∧
    split_answers cexBoundary ≠ split_answers_claimed cexBoundary := by
  exact ⟨by decide, by decide, by decide⟩

/-- Claim C5 (amended): `split_answers` splits at every leftmost,
non-overlapping occurrence of the delimiter that additionally starts
at a word boundary (not immediately preceded by a letter, digit or
underscore), discards the delimiters, trims each resulting substring,
discards trimmed substrings of length at most 20, and returns the
survivors in original order; in particular the claim's example keeps
the first segment and drops "Short.". -/
theorem C5_split_amended :
    (∀ cs : List Char, split_answers cs = split_answers_spec cs) ∧
    split_answers ("1. Hello world this is long enough. 2. Short.").data =
      [("Hello world this is long enough.").data] := by
  constructor
  · intro cs
    unfold split_answers split_answers_spec reSplit
    rw [show splitGo matchAt 0 false [] cs = splitSpec cs from
      reSplit_eq_splitSpec cs]
  · decide

/-! ## Claim C6 -/

/-- Claim C6 counterexample: the input `"1. " ++ 20 a's` splits into a
part that trims to exactly 20 characters, yet `split_answers` drops it
and returns nothing — the code keeps only parts of length strictly
greater than 20, so a trimmed segment of exactly 20 characters is
dropped, not retained as the claim states. -/
theorem C6_twenty_dropped :
    (reSplit cexTwenty).map strip = [[], List.replicate 20 'a'] ∧
    (List.replicate 20 'a').length = 20 ∧
    split_answers cexTwenty = [] := by
  exact ⟨by decide, by decide, by decide⟩

/-- Claim C6 (amended): exactly the trimmed segments of length at most
20 are dropped as noise — a trimmed part survives segmentation if and
only if its length strictly exceeds 20, so a segment of exactly 20
characters is dropped and one of 21 characters is retained. -/
theorem C6_length_filter (cs p : List Char)
    (h : p ∈ (reSplit cs).map strip) :
    p ∈ split_answers cs ↔ 20 < p.length := by
  unfold split_answers
  constructor
  · intro hin
    have hm := List.mem_filter.mp hin
    simpa using hm.2
  · intro hlen
    exact List.mem_filter.mpr ⟨h, by simpa using hlen⟩

/-- Witness for C6 (amended) at a 21-character segment. -/
theorem C6_length_filter_witness :
    List.replicate 21 'a' ∈ (reSplit cexTwentyOne).map strip ∧
    (List.replicate 21 'a' ∈ split_answers cexTwentyOne ↔
      20 < (List.replicate 21 'a').length) :=
  ⟨by decide, C6_length_filter cexTwentyOne (List.replicate 21 'a') (by decide)⟩
